import Mathlib

/-!
Verification development for `ppt2video.py` (DH-Center-Tuebingen/ppt2video).

The Python script is a linear pipeline: parse arguments, load an optional
pronunciation-mapping file, create (or reuse) a working directory, open the
presentation, compute the list of slide indices, and for each selected slide
extract the notes text, normalize it, apply pronunciation substitution,
export an image, synthesize audio and encode a clip; finally the clips are
concatenated.  This file is a shallow embedding of that script: the pure
string manipulation is translated to Lean functions, and the effectful parts
are modelled by an explicit event trace plus a run state transformer.

Scope notes for the embedding, recorded once here:
* character classification (`isWordChar`, lower-casing, whitespace) follows
  the ASCII fragment of Python semantics; every input appearing in a theorem
  below is ASCII;
* file paths are modelled as POSIX-style strings joined with a slash;
* the numeric `--silence` duration (a float that is only interpolated into an
  encoder command line) is not modelled.
-/

namespace Ppt2Video

/-! ## Python string primitives -/

/-- Whitespace characters recognised by Python `str.strip()` (ASCII fragment). -/
def pyIsSpace (c : Char) : Bool :=
  c == ' ' || c == '\t' || c == '\n' || c == '\r' || c == '\x0b' || c == '\x0c'

/-- Embeds Python `str.strip()` on a character list. -/
def pyStripL (l : List Char) : List Char :=
  ((l.dropWhile pyIsSpace).reverse.dropWhile pyIsSpace).reverse

/-- Embeds Python `str.strip()`. -/
def pyStripS (s : String) : String :=
  String.mk (pyStripL s.data)

/-- Embeds Python `str.lower()` (ASCII fragment). -/
def pyLower (s : String) : String :=
  String.mk (s.data.map Char.toLower)

/-- Embeds Python `str.split(sep)` for a single-character separator:
splits at every occurrence of `sep`, keeping empty pieces, so that
`"".split(sep) == [""]` and `"a,,b".split(',') == ["a", "", "b"]`. -/
def pySplit (sep : Char) : List Char → List (List Char)
  | [] => [[]]
  | c :: cs =>
    let r := pySplit sep cs
    if c = sep then
      [] :: r
    else
      match r with
      | h :: t => (c :: h) :: t
      | [] => [[c]]

/-- Decimal digits to a natural number; `none` when empty or a non-digit occurs. -/
def digitsToNat : List Char → Option Nat
  | [] => none
  | cs =>
    if cs.all Char.isDigit then
      some (cs.foldl (fun a c => a * 10 + (c.toNat - 48)) 0)
    else
      none

/-- Embeds Python `int(s)`: surrounding whitespace stripped, optional sign,
then decimal digits; `none` models the `ValueError` raise.  (Digit-group
underscores and non-ASCII digits, which Python also accepts, are out of
scope; no theorem below exercises them.) -/
def pyInt (s : String) : Option Int :=
  match (pyStripL s.data) with
  | '-' :: rest => (digitsToNat rest).map (fun n => -(n : Int))
  | '+' :: rest => (digitsToNat rest).map (fun n => (n : Int))
  | t => (digitsToNat t).map (fun n => (n : Int))

/-- Embeds Python `str.replace(old, new)` for a single-character `old`
(the script's `replace('\n', ' ')` and `replace('\r', ' ')`). -/
def pyReplaceChar (old new : Char) (s : String) : String :=
  String.mk (s.data.map (fun c => if c = old then new else c))

/-- Exact prefix match: if `pat` is a prefix of the text, return the rest. -/
def eatExact : List Char → List Char → Option (List Char)
  | [], rest => some rest
  | _ :: _, [] => none
  | a :: as, b :: bs => if a = b then eatExact as bs else none

/-- Left-to-right non-overlapping substring replacement, fuel-indexed so the
definition is structural (any fuel above the text length is exact). -/
def replScan (old new : List Char) : Nat → List Char → List Char
  | 0, t => t
  | _ + 1, [] => []
  | fuel + 1, c :: cs =>
    match eatExact old (c :: cs) with
    | some rest => new ++ replScan old new fuel rest
    | none => c :: replScan old new fuel cs

/-- Embeds Python `str.replace(old, new)` (all non-overlapping occurrences,
left to right).  The script only uses a non-empty `old` (`".wav"`); Python's
empty-pattern behaviour is out of scope. -/
def pyReplaceSub (old new s : String) : String :=
  if old.data.isEmpty then s
  else String.mk (replScan old.data new.data (s.data.length + 1) s.data)

/-- Embeds `os.path.join(a, b)` for an absolute `a` and relative `b`,
POSIX-style. -/
def pyJoin (a b : String) : String :=
  a ++ "/" ++ b

/-- The characters strictly after the last occurrence of `c`, if any. -/
def afterLast (c : Char) : List Char → Option (List Char)
  | [] => none
  | x :: xs =>
    match afterLast c xs with
    | some r => some r
    | none => if x = c then some xs else none

/-- Embeds `os.path.splitext(output)[1][1:]` (source line 49): the extension
of the basename after its last dot, without the dot; leading dots of the
basename do not start an extension. -/
def containerFormat (output : String) : String :=
  let base := (afterLast '/' output.data).getD output.data
  match afterLast '.' (base.dropWhile (· = '.')) with
  | some r => String.mk r
  | none => ""

/-! ## Error model -/

/-- The Python exceptions the script can raise in the modelled fragment. -/
inductive PyError where
  /-- `ValueError`: failed `int(...)` or a failed 2-tuple unpacking of `split`. -/
  | valueError
  /-- A COM automation error, e.g. fetching a slide index outside `1..Count`. -/
  | comError
  /-- `AttributeError`: attribute lookup on the args namespace failed. -/
  | attributeError
deriving DecidableEq, Repr

/-- Result of a Python computation that may raise. -/
inductive PyResult (α : Type) where
  | ok (a : α)
  | raised (e : PyError)
deriving DecidableEq, Repr

/-! ## Pronunciation-mapping file loading (source lines 34–39)

```
pronunciation_mapping = {}
if args.pronunciation_mapping:
    with open(args.pronunciation_mapping, ...) as f:
        for line in f:
            word, pronunciation = line.strip().split('=')
            pronunciation_mapping[word.lower().strip()] = pronunciation.lower().strip()
```
The dict is modelled as an association list in insertion order (Python dict
iteration order); assigning to an existing key overwrites in place. -/

/-- Python dict assignment `d[k] = v`: overwrite in place or append. -/
def dictInsert (d : List (String × String)) (k v : String) : List (String × String) :=
  if d.any (fun kv => kv.1 = k) then
    d.map (fun kv => if kv.1 = k then (k, v) else kv)
  else
    d ++ [(k, v)]

/-- The loading loop over the file's lines, carrying the dict built so far.
The unpacking `word, pronunciation = line.strip().split('=')` raises
`ValueError` unless the split produces exactly two pieces, i.e. unless the
line contains exactly one `=`. -/
def loadMappingAux (d : List (String × String)) :
    List String → PyResult (List (String × String))
  | [] => .ok d
  | line :: rest =>
    match pySplit '=' (pyStripL line.data) with
    | [w, p] =>
      loadMappingAux
        (dictInsert d (pyStripS (pyLower (String.mk w))) (pyStripS (pyLower (String.mk p))))
        rest
    | _ => .raised .valueError

/-- Load a pronunciation-mapping file given as its list of lines. -/
def loadMappingLines (lines : List String) : PyResult (List (String × String)) :=
  loadMappingAux [] lines

/-! ## Whole-word case-insensitive substitution (source lines 102–103)

```
for word, pronunciation in pronunciation_mapping.items():
    slide_text = re.sub(rf'\b{re.escape(word)}\b', pronunciation, slide_text,
                        flags=re.IGNORECASE)
```
`re.escape` makes the word a literal; the embedding below implements the
compiled pattern directly: scan the text left to right, and at each position
match the word case-insensitively, guarded by the two word-boundary
assertions; matches are non-overlapping and the replacement text is not
rescanned, exactly as `re.sub` behaves. -/

/-- Case-insensitive character comparison (ASCII fragment of `re.IGNORECASE`). -/
def lowEq (a b : Char) : Bool :=
  a.toLower == b.toLower

/-- Case-insensitive prefix test. -/
def leadsWith : List Char → List Char → Bool
  | [], _ => true
  | _ :: _, [] => false
  | a :: as, b :: bs => lowEq a b && leadsWith as bs

/-- Case-insensitive substring occurrence test. -/
def occursCI (w : List Char) : List Char → Bool
  | [] => leadsWith w []
  | c :: cs => leadsWith w (c :: cs) || occursCI w cs

/-- Case-insensitive prefix match returning the remaining text. -/
def ciMatch : List Char → List Char → Option (List Char)
  | [], rest => some rest
  | _ :: _, [] => none
  | a :: as, b :: bs => if lowEq a b then ciMatch as bs else none

/-- Word characters of the regex `\b` assertion (ASCII fragment of `\w`). -/
def isWordChar (c : Char) : Bool :=
  c.isAlphanum || c == '_'

/-- Word-character test with the edge of the string counting as non-word. -/
def isWordOpt : Option Char → Bool
  | none => false
  | some c => isWordChar c

/-- The scanning loop of `re.sub` for the pattern `\b<word>\b` with
`IGNORECASE`: at each position, the word must match case-insensitively and
both boundary assertions must hold (`\b` holds between two positions exactly
when one side is a word character and the other is not, string edges counting
as non-word).  `prev` is the original-text character just before the current
position.  Fuel-indexed to stay structural; any fuel above the text length is
exact. -/
def subScan (w r : List Char) : Nat → Option Char → List Char → List Char
  | 0, _, t => t
  | _ + 1, _, [] => []
  | fuel + 1, prev, c :: cs =>
    match ciMatch w (c :: cs) with
    | some rest =>
      if (isWordOpt prev != isWordChar (w.headD ' '))
          && (isWordChar (w.getLastD ' ') != isWordOpt rest.head?) then
        r ++ subScan w r fuel ((c :: cs).take w.length).getLast? rest
      else
        c :: subScan w r fuel (some c) cs
    | none => c :: subScan w r fuel (some c) cs

/-- Embeds `re.sub(rf'\b{re.escape(word)}\b', repl, text, flags=re.IGNORECASE)`.
The mapping loader never produces an empty word from a well-formed file line
with content on the left of `=`; Python's empty-pattern behaviour (zero-width
matches) is out of scope and the empty word is passed through unchanged. -/
def subWordCI (word repl text : String) : String :=
  if word.data.isEmpty then text
  else String.mk (subScan word.data repl.data (text.data.length + 1) none text.data)

/-- The substitution loop over the mapping entries, in dict iteration order
(source lines 102–103). -/
def applyPronunciation (pm : List (String × String)) (text : String) : String :=
  pm.foldl (fun t kv => subWordCI kv.1 kv.2 t) text

/-! ## Notes-text normalization (source line 99)

`slide_text = slide_text.replace('\n', ' ').replace('\r', ' ').strip()` -/

/-- Embeds source line 99. -/
def normalizeNotes (s : String) : String :=
  pyStripS (pyReplaceChar '\r' ' ' (pyReplaceChar '\n' ' ' s))

/-- The skip test of source line 94:
`if not slide_text or len(slide_text.strip()) == 0`. -/
def pySkipText (s : String) : Bool :=
  s == "" || (pyStripS s).length == 0

/-! ## Slide-list computation (source lines 65–76)

```
slide_list = []
if args.slides is None:
    slide_list = range(1, presentation.Slides.Count + 1)
else:
    slides = [s.strip() for s in args.slides.split(',')]
    for i in slides:
        if '-' in i:
            start, end = i.split('-')
            slide_list.extend(range(int(start), int(end) + 1))
        else:
            slide_list.append(int(i))
    slide_list = sorted(slide_list)
```
-/

/-- Embeds Python `range(a, b)` over integers: `a, a+1, …, b-1`, empty when
`b ≤ a`. -/
def intRange (a b : Int) : List Int :=
  (List.range (b - a).toNat).map (fun k => a + k)

/-- Parse one comma-separated token of the `--slides` string (already
stripped): a token containing `-` is unpacked by `i.split('-')` into exactly
two pieces (otherwise `ValueError`) and becomes `range(int(start), int(end)+1)`;
any other token becomes the single index `int(i)`. -/
def parseToken (tok : String) : PyResult (List Int) :=
  if tok.data.contains '-' then
    match pySplit '-' tok.data with
    | [a, b] =>
      match pyInt (String.mk a), pyInt (String.mk b) with
      | some s, some e => .ok (intRange s (e + 1))
      | _, _ => .raised .valueError
    | _ => .raised .valueError
  else
    match pyInt tok with
    | some v => .ok [v]
    | none => .raised .valueError

/-- The token loop of source lines 69–75, accumulating `slide_list`. -/
def parseTokens (acc : List Int) : List String → PyResult (List Int)
  | [] => .ok acc
  | tok :: rest =>
    match parseToken tok with
    | .ok ids => parseTokens (acc ++ ids) rest
    | .raised e => .raised e

/-- Embeds the `else` branch of source lines 68–76: split on `,`, strip each
token, parse, then `sorted(...)`. -/
def parseSlidesString (s : String) : PyResult (List Int) :=
  match parseTokens [] ((pySplit ',' s.data).map (fun t => pyStripS (String.mk t))) with
  | .ok l => .ok (List.insertionSort (· ≤ ·) l)
  | .raised e => .raised e

/-- Embeds source lines 65–76: the slide selector, from the optional
`--slides` string and the document's slide count. -/
def computeSlideList (slides : Option String) (count : Nat) : PyResult (List Int) :=
  match slides with
  | none => .ok ((List.range count).map (fun k : Nat => (k : Int) + 1))
  | some s => parseSlidesString s

/-! ## Run configuration and external world -/

/-- The `--api` choice (source line 22). -/
inductive Api where
  | sapi
  | azure
deriving DecidableEq, Repr

/-- The parsed command-line configuration (source lines 13–25).  The
pronunciation-mapping file is carried as its list of lines (`none` when the
option is absent).  The float `--silence` value is not modelled (it is only
interpolated into an encoder command line). -/
structure Config where
  pptfile : String
  output : String
  slides : Option String
  voice : String
  pronunciationLines : Option (List String)
  videoWidth : Nat
  videoHeight : Nat
  api : Api
  update : Option String
  quit_ppt : Bool

/-- Cancellation reasons of the speech SDK
(`speechsdk.CancellationReason`). -/
inductive CancelReason where
  | error
  | endOfStream
  | cancelledByUser
deriving DecidableEq, Repr

/-- Outcome reported by `speech_synthesizer.speak_text_async(...).get()`
(source lines 120–129): completed, canceled with a reason and an
`error_details` string (possibly empty), or any other result reason, which
the `if/elif` chain lets fall through like a completion. -/
inductive SynthResult where
  | completed
  | canceled (reason : CancelReason) (details : String)
  | otherReason
deriving DecidableEq, Repr

/-- The external systems the script talks to: the open presentation (slide
count and per-slide notes text), the Azure synthesis outcome per slide, the
directory name `mkdtemp()` would choose, and the number of presentations
still open after `presentation.Close()` (read by the dead quit branch). -/
structure World where
  slideCount : Nat
  notes : Int → String
  synth : Int → SynthResult
  mkdtempDir : String
  presentationsAfterClose : Nat

/-- The messages printed by the script, with their varying data. -/
inductive LogMsg where
  | generatingSilence
  | processing (n : Int)
  | skipping (n : Int)
  | exporting (n : Int)
  | synthesizing (n : Int)
  | synthCanceled (reason : CancelReason)
  /-- The error-details line, which also carries the credential/region hint
  text (source line 128). -/
  | synthErrorDetails (details : String)
  | creatingVideo (n : Int)
  | noVideos
  | creatingFullVideo
  | totalChars (n : Nat)
  | tempKept (dir : String)
  | done
deriving DecidableEq, Repr

/-- The chronological trace of side effects performed by a run.  Each
constructor corresponds to one effectful source line. -/
inductive Event where
  /-- `mkdtemp()` (line 52, fresh-run branch). -/
  | mkdtempE
  /-- `os.mkdir(dir)` (line 58). -/
  | mkdirE (path : String)
  /-- `ppt.Presentations.Open(...)` (line 62). -/
  | openPresentation (path : String)
  /-- The silence-generating encoder call (line 81). -/
  | ffmpegSilence (out : String)
  /-- A `print(...)` call. -/
  | print (msg : LogMsg)
  /-- The conditional `os.remove` of a pre-existing slide image (lines 110–111). -/
  | removeIfExists (n : Int) (path : String)
  /-- `slide.Export(...)` (line 112). -/
  | exportImage (n : Int) (path : String) (w h : Nat)
  /-- The Azure synthesis call writing the audio file (lines 118–120). -/
  | azureSynth (n : Int) (out : String) (text : String)
  /-- The SAPI synthesis call writing the audio file (lines 131–137). -/
  | sapiSynth (n : Int) (out : String) (text : String) (voiceIndex : Int)
  /-- The audio-padding encoder call (line 141). -/
  | ffmpegPad (n : Int) (out : String)
  /-- The clip-muxing encoder call (line 148). -/
  | ffmpegClip (n : Int) (out : String)
  /-- `presentation.Close()` (line 151). -/
  | closePresentation
  /-- `ppt.Quit()` (line 155, unreachable as written). -/
  | quitPpt
  /-- Writing the concatenation manifest (lines 165–167). -/
  | writeConcat (path : String) (videos : List String)
  /-- The final concatenating encoder call (line 170). -/
  | ffmpegFinal (concatPath : String) (out : String)
deriving DecidableEq, Repr

/-- How a run terminates: `exit(0)` / falling off the end, or an uncaught
Python exception. -/
inductive RunExit where
  | success
  | pyError (e : PyError)
deriving DecidableEq, Repr

/-- Mutable script state threaded through the run: the event trace so far,
the `total_chars` counter and the `slide_videos` list. -/
structure RunState where
  events : List Event
  chars : Nat
  videos : List String
deriving DecidableEq, Repr

/-- How the per-slide loop ends: list exhausted, `break` (line 129), or an
uncaught exception inside the loop body. -/
inductive LoopExit where
  | finished
  | broke
  | failed (e : PyError)
deriving DecidableEq, Repr

/-- The observable result of a whole run. -/
structure RunResult where
  events : List Event
  chars : Nat
  videos : List String
  exit : RunExit
deriving DecidableEq, Repr

def pushEvent (st : RunState) (e : Event) : RunState :=
  { st with events := st.events ++ [e] }

def pushEvents (st : RunState) (es : List Event) : RunState :=
  { st with events := st.events ++ es }

/-! ## Deterministic artifact paths (source lines 52–55, 80, 109, 115, 140, 144, 162) -/

/-- `temp_dir = args.update if args.update else mkdtemp()` (line 52). -/
def tempDirOf (cfg : Config) (w : World) : String :=
  match cfg.update with
  | some d => d
  | none => w.mkdtempDir

def slideFolder (cfg : Config) (w : World) : String :=
  pyJoin (tempDirOf cfg w) "slides"

def audioFolder (cfg : Config) (w : World) : String :=
  pyJoin (tempDirOf cfg w) "audio"

def videoFolder (cfg : Config) (w : World) : String :=
  pyJoin (tempDirOf cfg w) "video"

def silencePath (cfg : Config) (w : World) : String :=
  pyJoin (tempDirOf cfg w) "silence.wav"

def concatPath (cfg : Config) (w : World) : String :=
  pyJoin (tempDirOf cfg w) "concat.txt"

def slideImagePath (cfg : Config) (w : World) (n : Int) : String :=
  pyJoin (slideFolder cfg w) ("slide_" ++ toString n ++ ".png")

def audioRawPath (cfg : Config) (w : World) (n : Int) : String :=
  pyJoin (audioFolder cfg w) ("audio_" ++ toString n ++ ".wav")

/-- `audio_file.replace('.wav', '.m4a')` (line 140). -/
def audioPaddedPath (cfg : Config) (w : World) (n : Int) : String :=
  pyReplaceSub ".wav" ".m4a" (audioRawPath cfg w n)

def videoFilePath (cfg : Config) (w : World) (n : Int) : String :=
  pyJoin (videoFolder cfg w) ("video_" ++ toString n ++ "." ++ containerFormat cfg.output)

/-! ## The per-slide loop (source lines 88–148) -/

/-- Steps shared by both synthesis back-ends once the audio file exists:
pad the audio (line 141), record the clip path (lines 144–145), print and
encode the clip (lines 147–148). -/
def clipSteps (cfg : Config) (w : World) (n : Int) (st : RunState) : RunState :=
  let st := pushEvent st (.ffmpegPad n (audioPaddedPath cfg w n))
  let vf := videoFilePath cfg w n
  let st := { st with videos := st.videos ++ [vf] }
  let st := pushEvent st (.print (.creatingVideo n))
  pushEvent st (.ffmpegClip n vf)

/-- The cancellation handling of source lines 123–128: print the
cancellation reason; if the reason is an error and `error_details` is
non-empty, print the details together with the credential/region hint. -/
def cancelLog (st : RunState) (reason : CancelReason) (details : String) : RunState :=
  let st := pushEvent st (.print (.synthCanceled reason))
  if reason = .error ∧ details ≠ "" then
    pushEvent st (.print (.synthErrorDetails details))
  else st

/-- The per-slide loop, one iteration per selected index, mirroring source
lines 88–148 statement by statement.  Fetching an index outside
`1..slideCount` raises a COM error; an empty or whitespace-only notes text
skips the slide; an Azure cancellation logs and breaks out of the loop; in
SAPI mode a non-integer `--voice` value raises `ValueError` at
`int(args.voice)`. -/
def runLoop (cfg : Config) (w : World) (pm : List (String × String)) :
    List Int → RunState → RunState × LoopExit
  | [], st => (st, .finished)
  | n :: rest, st =>
    let st := pushEvent st (.print (.processing n))
    if 1 ≤ n ∧ n ≤ (w.slideCount : Int) then
      let txt := w.notes n
      if pySkipText txt then
        runLoop cfg w pm rest (pushEvent st (.print (.skipping n)))
      else
        let txt := applyPronunciation pm (normalizeNotes txt)
        let st := { st with chars := st.chars + txt.length }
        let img := slideImagePath cfg w n
        let st := pushEvent st (.print (.exporting n))
        let st := pushEvent st (.removeIfExists n img)
        let st := pushEvent st (.exportImage n img cfg.videoWidth cfg.videoHeight)
        let audio := audioRawPath cfg w n
        let st := pushEvent st (.print (.synthesizing n))
        match cfg.api with
        | .azure =>
          let st := pushEvent st (.azureSynth n audio txt)
          match w.synth n with
          | .completed => runLoop cfg w pm rest (clipSteps cfg w n st)
          | .otherReason => runLoop cfg w pm rest (clipSteps cfg w n st)
          | .canceled reason details => (cancelLog st reason details, .broke)
        | .sapi =>
          match pyInt cfg.voice with
          | none => (st, .failed .valueError)
          | some v =>
            let st := pushEvent st (.sapiSynth n audio txt v)
            runLoop cfg w pm rest (clipSteps cfg w n st)
    else
      (st, .failed .comError)

/-! ## After the loop (source lines 150–174) -/

/-- The attribute names argparse sets on the parsed-arguments namespace — one
per `add_argument` call, using each argument's dest (source lines 14–24).
The `--quit_ppt` flag is stored under `quit_ppt`. -/
def argNamespaceAttrs : List String :=
  ["pptfile", "output", "slides", "silence", "voice", "pronunciation_mapping",
   "video_width", "video_height", "api", "update", "quit_ppt"]

/-- Embeds Python attribute lookup on the args namespace: it succeeds exactly
for the attributes argparse created. -/
def argsHasAttr (name : String) : Bool :=
  argNamespaceAttrs.contains name

/-- Final assembly (source lines 157–174): the zero-clips early exit, the
manifest write (fresh runs only), the concatenating encoder call and the
closing prints. -/
def assembly (cfg : Config) (w : World) (st : RunState) : RunResult :=
  if st.videos.length = 0 then
    ⟨(pushEvent st (.print .noVideos)).events, st.chars, st.videos, .success⟩
  else
    let st :=
      match cfg.update with
      | none => pushEvent st (.writeConcat (concatPath cfg w) st.videos)
      | some _ => st
    let st := pushEvent st (.print .creatingFullVideo)
    let st := pushEvent st (.ffmpegFinal (concatPath cfg w) cfg.output)
    let st := pushEvents st
      [.print (.totalChars st.chars), .print (.tempKept (tempDirOf cfg w)), .print .done]
    ⟨st.events, st.chars, st.videos, .success⟩

/-- Source lines 150–174 after the loop: close the presentation (line 151),
then evaluate `args.quitppt` (line 154).  The namespace has no attribute
named `quitppt` — the flag's dest is `quit_ppt` — so this lookup raises
`AttributeError`; the quit branch and everything after it are written out
faithfully but are reachable only if the lookup succeeded. -/
def afterLoop (cfg : Config) (w : World) (st : RunState) : RunResult :=
  let st := pushEvent st .closePresentation
  if argsHasAttr "quitppt" then
    let st :=
      if cfg.quit_ppt ∧ w.presentationsAfterClose = 0 then pushEvent st .quitPpt
      else st
    assembly cfg w st
  else
    ⟨st.events, st.chars, st.videos, .pyError .attributeError⟩

/-- The pronunciation-mapping loading of source lines 34–39, from the
configuration. -/
def loadMappingOf (cfg : Config) : PyResult (List (String × String)) :=
  match cfg.pronunciationLines with
  | none => .ok []
  | some lines => loadMappingLines lines

/-- The state after working-directory setup (lines 52–58) and opening the
presentation (lines 61–62): in fresh-run mode the directory and its three
subdirectories are created, in update mode nothing is. -/
def setupState (cfg : Config) (w : World) : RunState :=
  let st : RunState := ⟨[], 0, []⟩
  let st :=
    match cfg.update with
    | some _ => st
    | none =>
      pushEvents st
        [.mkdtempE, .mkdirE (slideFolder cfg w), .mkdirE (audioFolder cfg w),
         .mkdirE (videoFolder cfg w)]
  pushEvent st (.openPresentation cfg.pptfile)

/-- The state just before the loop: setup, then the silence-file generation
of lines 79–81. -/
def silenceState (cfg : Config) (w : World) : RunState :=
  pushEvents (setupState cfg w)
    [.print .generatingSilence, .ffmpegSilence (silencePath cfg w)]

/-- The whole script, top to bottom: mapping loading (lines 34–39), working
directory setup (lines 52–58), opening the presentation (lines 61–62), the
slide selector (lines 65–76), silence generation (lines 79–81), the per-slide
loop (lines 88–148) and the post-loop code (lines 150–174).  An uncaught
exception stops the run with the events performed so far. -/
def runMain (cfg : Config) (w : World) : RunResult :=
  match loadMappingOf cfg with
  | .raised e => ⟨[], 0, [], .pyError e⟩
  | .ok pm =>
    let st := setupState cfg w
    match computeSlideList cfg.slides w.slideCount with
    | .raised e => ⟨st.events, st.chars, st.videos, .pyError e⟩
    | .ok sl =>
      match runLoop cfg w pm sl (silenceState cfg w) with
      | (st, .failed e) => ⟨st.events, st.chars, st.videos, .pyError e⟩
      | (st, .finished) => afterLoop cfg w st
      | (st, .broke) => afterLoop cfg w st

/-! ## Observations used by the claims -/

/-- The slide list a run works through (empty when its computation raises). -/
def slideListOf (cfg : Config) (w : World) : List Int :=
  match computeSlideList cfg.slides w.slideCount with
  | .ok l => l
  | .raised _ => []

/-- The pronunciation mapping a run works with (empty when loading raises). -/
def mappingOf (cfg : Config) : List (String × String) :=
  match loadMappingOf cfg with
  | .ok pm => pm
  | .raised _ => []

/-- The post-substitution text synthesized for a slide: raw notes text,
normalized, then pronunciation-mapped (source lines 99–103). -/
def slideFinalText (pm : List (String × String)) (w : World) (n : Int) : String :=
  applyPronunciation pm (normalizeNotes (w.notes n))

/-- Whether processing slide `n` aborts the loop after the character counter
was already incremented: an Azure cancellation (`break`, line 129) or the
SAPI `int(args.voice)` failure (line 132). -/
def slideAborts (cfg : Config) (w : World) (n : Int) : Bool :=
  match cfg.api with
  | .azure =>
    match w.synth n with
    | .canceled _ _ => true
    | _ => false
  | .sapi => (pyInt cfg.voice).isNone

/-- The slides whose text length the loop adds to `total_chars`: the prefix
of the selected list up to the first invalid index (excluded — the COM error
fires before counting) or the first aborting slide (included — the counter is
incremented at line 105, before synthesis), with empty-notes slides skipped. -/
def countedSlides (cfg : Config) (w : World) : List Int → List Int
  | [] => []
  | n :: rest =>
    if 1 ≤ n ∧ n ≤ (w.slideCount : Int) then
      if pySkipText (w.notes n) then countedSlides cfg w rest
      else if slideAborts cfg w n then [n]
      else n :: countedSlides cfg w rest
    else
      []

/-- The sum claimed for the character counter: post-substitution text lengths
over all selected slides whose notes are not empty/whitespace-only. -/
def claimC6Sum (cfg : Config) (w : World) : Nat :=
  (((slideListOf cfg w).filter (fun n => !pySkipText (w.notes n))).map
    (fun n => (slideFinalText (mappingOf cfg) w n).length)).sum

/-- The slide index an event touches, when it is a per-slide artifact step. -/
def eventIndex : Event → Option Int
  | .removeIfExists n _ => some n
  | .exportImage n _ _ _ => some n
  | .azureSynth n _ _ => some n
  | .sapiSynth n _ _ _ => some n
  | .ffmpegPad n _ => some n
  | .ffmpegClip n _ => some n
  | _ => none

/-- Whether an event creates the working directory or one of its
subdirectories. -/
def isDirCreation : Event → Bool
  | .mkdtempE => true
  | .mkdirE _ => true
  | _ => false

/-- Whether an event writes the concatenation manifest. -/
def isConcatWrite : Event → Bool
  | .writeConcat _ _ => true
  | _ => false

/-- Whether an event is the error-details/credential-hint print. -/
def isErrorDetailsLog : Event → Bool
  | .print (.synthErrorDetails _) => true
  | _ => false

/-- Whether an event is the `Processing slide n` print that opens a loop
iteration. -/
def isProcessingLog : Event → Bool
  | .print (.processing _) => true
  | _ => false

/-- Whether an event is the final concatenating encoder call. -/
def isFinalAssembly : Event → Bool
  | .ffmpegFinal _ _ => true
  | _ => false

/-- Unwrap a slide-list result, with `[]` for a raise. -/
def resultListOf : PyResult (List Int) → List Int
  | .ok l => l
  | .raised _ => []

/-! ## Concrete fixtures used by the per-claim theorems -/

/-- A baseline fresh-run Azure configuration. -/
def cfgA : Config :=
  { pptfile := "/in/pres.pptx", output := "/out/video.mp4", slides := none,
    voice := "en-GB-SoniaNeural", pronunciationLines := none,
    videoWidth := 1920, videoHeight := 1080, api := .azure, update := none,
    quit_ppt := false }

/-- A presentation with no slides (so no clip can be produced). -/
def wEmpty : World :=
  { slideCount := 0, notes := fun _ => "", synth := fun _ => .completed,
    mkdtempDir := "/tmp/t", presentationsAfterClose := 0 }

/-- Five slides, all with notes, synthesis always completing. -/
def wFive : World :=
  { slideCount := 5, notes := fun _ => "Words.", synth := fun _ => .completed,
    mkdtempDir := "/tmp/t", presentationsAfterClose := 0 }

/-- An event allowed in update mode: it creates no directory, writes no
concatenation manifest, and any per-slide artifact step it performs is keyed
by a selected index. -/
def updOkEvent (sel : List Int) (e : Event) : Prop :=
  isDirCreation e = false ∧ isConcatWrite e = false ∧
  ∀ i, eventIndex e = some i → i ∈ sel

/-- The C10 configuration: an inverted-range selection string. -/
def cfgInv : Config :=
  { cfgA with slides := some "5-3" }

/-- A configuration whose pronunciation file has a blank second line. -/
def cfgBlankLine : Config :=
  { cfgA with pronunciationLines := some ["a=b", ""] }

/-- An update-mode configuration regenerating only slide 2. -/
def cfgUpd : Config :=
  { cfgA with update := some "/prev", slides := some "2" }

/-- A presentation whose single slide has whitespace-only notes. -/
def wWhitespace : World :=
  { slideCount := 1, notes := fun _ => "   \n  ", synth := fun _ => .completed,
    mkdtempDir := "/tmp/t", presentationsAfterClose := 0 }

/-- Three slides with notes; synthesis of slide 2 is canceled due to an
error with a non-empty `error_details`. -/
def wCancelDetail : World :=
  { slideCount := 3, notes := fun _ => "Alpha",
    synth := fun n => if n = 2 then .canceled .error "Bad key" else .completed,
    mkdtempDir := "/tmp/t", presentationsAfterClose := 0 }

/-- Three slides with notes; synthesis of slide 2 is canceled by the user,
with empty `error_details`. -/
def wCancelPlain : World :=
  { slideCount := 3, notes := fun _ => "Alpha",
    synth := fun n => if n = 2 then .canceled .cancelledByUser "" else .completed,
    mkdtempDir := "/tmp/t", presentationsAfterClose := 0 }

/-- Two slides with notes `"ab"` and `"cd"`; synthesis of slide 1 is
canceled, so the loop breaks before slide 2 is counted. -/
def wCountBreak : World :=
  { slideCount := 2, notes := fun n => if n = 1 then "ab" else "cd",
    synth := fun n => if n = 1 then .canceled .error "Bad key" else .completed,
    mkdtempDir := "/tmp/t", presentationsAfterClose := 0 }

/-- Three slides `"ab"`, whitespace-only, `"cde"`, all synthesis completing:
the run counts 2 + 3 = 5 characters. -/
def wCountMix : World :=
  { slideCount := 3,
    notes := fun n => if n = 1 then "ab" else if n = 2 then "   \n  " else "cde",
    synth := fun _ => .completed,
    mkdtempDir := "/tmp/t", presentationsAfterClose := 0 }

/-- The missing-attribute lookup at source line 154: the namespace attribute
is `quit_ppt`, so looking up `quitppt` fails. -/
theorem argsHasAttr_quitppt : argsHasAttr "quitppt" = false := by decide

/-- Every run past the loop ends in the same `AttributeError`, whatever the
loop did. -/
theorem afterLoop_exit (cfg : Config) (w : World) (st : RunState) :
    (afterLoop cfg w st).exit = RunExit.pyError .attributeError := by
  simp [afterLoop, argsHasAttr_quitppt]

/-- C1.  The claim says a run that completes its per-slide loop and closes
the presentation exits with status 0 (also on the zero-clips early-exit
path).  The code cannot: line 154 reads `args.quitppt`, but the flag defined
at line 24 is stored as `quit_ppt`, so every run that reaches the post-loop
code raises `AttributeError` — and runs that do not reach it have already
raised.  No run of the script as written exits successfully. -/
theorem C1_no_run_exits_successfully (cfg : Config) (w : World) :
    (runMain cfg w).exit ≠ RunExit.success := by
  unfold runMain
  cases hm : loadMappingOf cfg with
  | raised e => simp
  | ok pm =>
    cases hs : computeSlideList cfg.slides w.slideCount with
    | raised e => simp
    | ok sl =>
      rcases hl : runLoop cfg w pm sl (silenceState cfg w) with ⟨st, ex⟩
      cases ex <;> simp [hl, afterLoop_exit]

/-- C1, concretely: a run over an empty presentation — the zero-clips
early-exit situation — produces no clips, never prints the
`no slide videos` message, and dies with `AttributeError` instead of
exiting 0. -/
theorem C1_empty_run_crashes :
    (runMain cfgA wEmpty).videos = [] ∧
    Event.print .noVideos ∉ (runMain cfgA wEmpty).events ∧
    (runMain cfgA wEmpty).exit = RunExit.pyError .attributeError := by
  decide

/-- C3.  The slide selector: with no selection string it yields
`1..N` ascending; the selection string `"2,4-6,9"` yields `[2,4,5,6,9]`
(comma-split, tokens trimmed, `-` tokens as inclusive ranges, others as
single integers); and every successfully parsed selection is sorted
ascending. -/
theorem C3_slide_selector :
    (∀ N : Nat, computeSlideList none N =
      .ok ((List.range' 1 N).map (fun k : Nat => (k : Int)))) ∧
    computeSlideList (some "2,4-6,9") 0 = .ok [2, 4, 5, 6, 9] ∧
    ∀ s : String, (resultListOf (parseSlidesString s)).Sorted (· ≤ ·) := by
  refine ⟨fun N => ?_, by decide, fun s => ?_⟩
  · have h : (List.range N).map (fun k : Nat => (k : Int) + 1) =
        (List.range' 1 N).map (fun k : Nat => (k : Int)) := by
      rw [List.range'_eq_map_range, List.map_map]
      refine List.map_congr_left ?_
      intro a _
      simp only [Function.comp_apply]
      omega
    simp [computeSlideList, h]
  · unfold parseSlidesString
    cases parseTokens [] ((pySplit ',' s.data).map (fun t => pyStripS (String.mk t))) with
    | ok l => exact List.sorted_insertionSort _ l
    | raised e => simp [resultListOf]

/-- C9 counterexample.  The claim says every maximal run of newline and
carriage-return characters — such as `"\r\n"` — is rendered as a single
space; but line 99 replaces each of the two characters separately, so
`"a\r\nb"` normalizes to `"a  b"` (two spaces), not `"a b"`. -/
theorem C9_counterexample :
    normalizeNotes "a\r\nb" = "a  b" ∧ normalizeNotes "a\r\nb" ≠ "a b" := by
  decide

/-- C9, amended.  Normalization replaces every newline character and every
carriage-return character with one space each — so a `"\r\n"` pair becomes
two spaces, not one — and then trims surrounding whitespace. -/
theorem C9_normalization_amended :
    (∀ s : String, normalizeNotes s =
      pyStripS (String.mk (s.data.map
        (fun c => if c = '\n' ∨ c = '\r' then ' ' else c)))) ∧
    normalizeNotes "a\r\nb" = "a  b" := by
  refine ⟨fun s => ?_, by decide⟩
  have hfun : ((fun c => if c = '\r' then ' ' else c) ∘
      (fun c => if c = '\n' then ' ' else c))
      = (fun c : Char => if c = '\n' ∨ c = '\r' then ' ' else c) := by
    funext c
    rcases eq_or_ne c '\n' with h | h
    · simp [h, Function.comp]
    · rcases eq_or_ne c '\r' with h2 | h2
      · simp [h2, Function.comp]
      · simp [Function.comp, h, h2]
  show pyStripS (String.mk ((s.data.map _).map _)) = _
  rw [List.map_map, hfun]

/-- C10.  An inverted range token `start-end` with `start > end` contributes
no indices (`range(int(start), int(end) + 1)` is empty) and parsing still
succeeds, so `--slides 5-3` yields an empty slide list.  But the run does
not "proceed to the zero-clips early-exit path": line 154's `args.quitppt`
lookup raises `AttributeError` before the zero-clips check of line 157, so
the `no slide videos` message is never printed and the run dies instead of
exiting 0. -/
theorem C10_inverted_range :
    (∀ a b : Int, b < a → intRange a (b + 1) = []) ∧
    computeSlideList (some "5-3") 5 = .ok [] ∧
    (runMain cfgInv wFive).videos = [] ∧
    ((runMain cfgInv wFive).events.filter isProcessingLog) = [] ∧
    Event.print .noVideos ∉ (runMain cfgInv wFive).events ∧
    (runMain cfgInv wFive).exit = RunExit.pyError .attributeError := by
  refine ⟨fun a b h => ?_, by decide, by decide, by decide, by decide, by decide⟩
  have h0 : (b + 1 - a).toNat = 0 := by omega
  simp [intRange, h0]

/-- Witness for C10: the general inverted-range part applied at `5-3`. -/
theorem C10_witness : intRange 5 (3 + 1) = [] :=
  C10_inverted_range.1 5 3 (by decide)

/-! ## C8: pronunciation-file loading -/

/-- `pySplit` never returns an empty list of pieces. -/
theorem pySplit_ne_nil (sep : Char) (l : List Char) : pySplit sep l ≠ [] := by
  induction l with
  | nil => simp [pySplit]
  | cons c cs ih =>
    simp only [pySplit]
    by_cases h : c = sep
    · simp [h]
    · simp only [h, if_false]
      cases hr : pySplit sep cs with
      | nil => exact absurd hr ih
      | cons x xs => simp

/-- Splitting produces one more piece than the number of separators. -/
theorem pySplit_length (sep : Char) (l : List Char) :
    (pySplit sep l).length = l.count sep + 1 := by
  induction l with
  | nil => simp [pySplit]
  | cons c cs ih =>
    simp only [pySplit]
    by_cases h : c = sep
    · simp [h, List.count_cons, ih]
    · cases hr : pySplit sep cs with
      | nil => exact absurd hr (pySplit_ne_nil sep cs)
      | cons x xs =>
        rw [hr] at ih
        simp_all [List.count_cons, h]

/-- `dropWhile` over space characters does not change the count of a
non-space character. -/
theorem count_dropWhile_space (c : Char) (hc : pyIsSpace c = false) (l : List Char) :
    (l.dropWhile pyIsSpace).count c = l.count c := by
  induction l with
  | nil => simp
  | cons x xs ih =>
    by_cases hx : pyIsSpace x
    · have hxc : x ≠ c := fun h => by rw [h] at hx; rw [hc] at hx; exact Bool.noConfusion hx
      simp [List.dropWhile_cons, hx, ih, List.count_cons, Ne.symm hxc]
    · simp [List.dropWhile_cons, hx]

/-- Stripping does not change the count of a non-space character; in
particular a line's `=` count survives `line.strip()`. -/
theorem count_pyStrip (c : Char) (hc : pyIsSpace c = false) (l : List Char) :
    (pyStripL l).count c = l.count c := by
  unfold pyStripL
  rw [List.count_reverse, count_dropWhile_space c hc, List.count_reverse,
    count_dropWhile_space c hc]

/-- The loading loop raises exactly when some line does not contain exactly
one `=`, whatever dict has been accumulated so far. -/
theorem loadMappingAux_raises_iff (lines : List String) :
    ∀ d, (loadMappingAux d lines = .raised .valueError ↔
      ∃ l ∈ lines, l.data.count '=' ≠ 1) := by
  induction lines with
  | nil => intro d; simp [loadMappingAux]
  | cons line rest ih =>
    intro d
    have hlen : (pySplit '=' (pyStripL line.data)).length = line.data.count '=' + 1 := by
      rw [pySplit_length, count_pyStrip '=' (by decide)]
    rcases hsp : pySplit '=' (pyStripL line.data) with _ | ⟨w, _ | ⟨p, _ | ⟨x, xs⟩⟩⟩
    · exact absurd hsp (pySplit_ne_nil _ _)
    · rw [hsp] at hlen
      have hcount : line.data.count '=' ≠ 1 := by simp at hlen; omega
      simp only [loadMappingAux, hsp]
      constructor
      · intro _; exact ⟨line, List.mem_cons_self _ _, hcount⟩
      · intro _; trivial
    · rw [hsp] at hlen
      have hcount : line.data.count '=' = 1 := by simp at hlen; omega
      simp only [loadMappingAux, hsp]
      rw [ih]
      constructor
      · rintro ⟨l, hl, hne⟩; exact ⟨l, List.mem_cons_of_mem _ hl, hne⟩
      · rintro ⟨l, hl, hne⟩
        rcases List.mem_cons.mp hl with rfl | hl
        · exact absurd hcount hne
        · exact ⟨l, hl, hne⟩
    · rw [hsp] at hlen
      have hcount : line.data.count '=' ≠ 1 := by simp at hlen; omega
      simp only [loadMappingAux, hsp]
      constructor
      · intro _; exact ⟨line, List.mem_cons_self _ _, hcount⟩
      · intro _; trivial

/-- C8 counterexample.  The claim says a file whose every *non-blank* line
contains exactly one `=` loads successfully.  A file whose second line is
blank refutes this: `line.strip().split('=')` on the blank line yields one
piece and the 2-tuple unpacking raises `ValueError`, although every
non-blank line of the file contains exactly one `=`. -/
theorem C8_counterexample :
    loadMappingLines ["a=b", ""] = .raised .valueError ∧
    ∀ l ∈ (["a=b", ""] : List String), pyStripS l ≠ "" → l.data.count '=' = 1 := by
  decide

/-- C8, amended.  Loading fails with the fatal `ValueError` if and only if
some line of the file — blank lines included — does not contain exactly one
`=`; a file whose *every* line contains exactly one `=` loads into a table
with lowercased, whitespace-stripped keys and values; and when loading
raises, the run dies before any slide processing: its event trace is empty.
-/
theorem C8_mapping_load_amended :
    (∀ lines : List String, loadMappingLines lines = .raised .valueError ↔
      ∃ l ∈ lines, l.data.count '=' ≠ 1) ∧
    loadMappingLines ["FDAT=effdutt", " Foo = Bar "] =
      .ok [("fdat", "effdutt"), ("foo", "bar")] ∧
    ∀ (cfg : Config) (w : World) (e : PyError), loadMappingOf cfg = .raised e →
      (runMain cfg w).events = [] ∧ (runMain cfg w).exit = RunExit.pyError e := by
  refine ⟨fun lines => loadMappingAux_raises_iff lines [], by decide,
    fun cfg w e h => ?_⟩
  unfold runMain
  rw [h]
  exact ⟨rfl, rfl⟩

/-- Witness for C8: the amended theorem applied to the blank-line file. -/
theorem C8_witness :
    (runMain cfgBlankLine wFive).events = [] ∧
    (runMain cfgBlankLine wFive).exit = RunExit.pyError .valueError :=
  C8_mapping_load_amended.2.2 cfgBlankLine wFive .valueError (by decide)

/-! ## C4: pronunciation substitution -/

/-- A successful case-insensitive prefix match implies the case-insensitive
prefix test. -/
theorem ciMatch_leadsWith {w : List Char} :
    ∀ {t r : List Char}, ciMatch w t = some r → leadsWith w t = true := by
  induction w with
  | nil => intro t r _; rfl
  | cons a as ih =>
    intro t r h
    cases t with
    | nil => exact absurd h (by simp [ciMatch])
    | cons b bs =>
      simp only [ciMatch] at h
      by_cases hl : lowEq a b
      · simp only [hl, if_true] at h
        simp [leadsWith, hl, ih h]
      · simp [hl] at h

/-- If the word does not occur case-insensitively anywhere in the text, the
`re.sub` scanner copies the text unchanged, for any fuel and any previous
character. -/
theorem subScan_of_not_occurs {w rep : List Char} :
    ∀ {t : List Char}, occursCI w t = false →
      ∀ (fuel : Nat) (prev : Option Char), subScan w rep fuel prev t = t := by
  intro t
  induction t with
  | nil =>
    intro _ fuel prev
    cases fuel <;> rfl
  | cons c cs ih =>
    intro h fuel prev
    simp only [occursCI, Bool.or_eq_false_iff] at h
    cases fuel with
    | zero => rfl
    | succ fuel =>
      simp only [subScan]
      cases hm : ciMatch w (c :: cs) with
      | some r => rw [ciMatch_leadsWith hm] at h; exact absurd h.1 (by simp)
      | none => rw [ih h.2]

/-- C4.  Pronunciation substitution replaces whole-word, case-insensitive
occurrences, in mapping order: the single-entry mapping `fdat → effdutt`
turns `"The FDAT value"` into `"The effdutt value"`, leaves the
non-whole-word occurrence in `"FDATA"` unchanged, and, generally, a word
with no case-insensitive occurrence in the text leaves the text unchanged
(so substitution is idempotent on text without mapped words). -/
theorem C4_pronunciation_substitution :
    applyPronunciation [("fdat", "effdutt")] "The FDAT value" = "The effdutt value" ∧
    applyPronunciation [("fdat", "effdutt")] "FDATA" = "FDATA" ∧
    ∀ word repl text : String, occursCI word.data text.data = false →
      subWordCI word repl text = text := by
  refine ⟨by decide, by decide, fun word repl text h => ?_⟩
  unfold subWordCI
  by_cases he : word.data.isEmpty
  · simp [he]
  · simp only [he, if_false]
    rw [subScan_of_not_occurs h]
    simp

/-- Witness for C4: the general no-occurrence part applied to a text not
containing the mapped word. -/
theorem C4_witness :
    occursCI "fdat".data "plain text".data = false ∧
    subWordCI "fdat" "effdutt" "plain text" = "plain text" :=
  ⟨by decide, C4_pronunciation_substitution.2.2 "fdat" "effdutt" "plain text" (by decide)⟩

/-! ## C5: skipping slides with empty or whitespace-only notes -/

/-- Composing two event pushes. -/
theorem pushEvent_pushEvent (st : RunState) (a b : Event) :
    pushEvent (pushEvent st a) b = pushEvents st [a, b] := by
  simp [pushEvent, pushEvents]

/-- C5.  A selected slide whose notes text is empty or whitespace-only is
skipped entirely: the loop iteration only prints the processing and skipping
messages — no artifact event, no clip, no character-count change — and
processing continues with the remaining indices.  Concretely, a run over a
presentation whose only slide has notes `"   \n  "` performs no per-slide
artifact step, produces no clip and counts zero characters. -/
theorem C5_whitespace_notes_skipped :
    (∀ (cfg : Config) (w : World) (pm : List (String × String)) (st : RunState)
        (n : Int) (rest : List Int),
      pySkipText (w.notes n) = true → 1 ≤ n → n ≤ (w.slideCount : Int) →
      runLoop cfg w pm (n :: rest) st =
        runLoop cfg w pm rest
          (pushEvents st [.print (.processing n), .print (.skipping n)])) ∧
    ((runMain cfgA wWhitespace).events.filter (fun e => (eventIndex e).isSome) = [] ∧
      (runMain cfgA wWhitespace).chars = 0 ∧
      (runMain cfgA wWhitespace).videos = []) := by
  refine ⟨fun cfg w pm st n rest hskip h1 h2 => ?_, by decide, by decide, by decide⟩
  simp only [runLoop]
  rw [if_pos ⟨h1, h2⟩, hskip]
  simp only [if_true, pushEvent_pushEvent]

/-- Witness for C5: the skip equation applied to the whitespace-notes world
at slide 1. -/
theorem C5_witness :
    runLoop cfgA wWhitespace [] [1] ⟨[], 0, []⟩ =
      runLoop cfgA wWhitespace [] []
        (pushEvents ⟨[], 0, []⟩ [.print (.processing 1), .print (.skipping 1)]) :=
  C5_whitespace_notes_skipped.1 cfgA wWhitespace [] ⟨[], 0, []⟩ 1 []
    (by decide) (by decide) (by decide)

/-! ## C2: Azure synthesis cancellation -/

/-- C2.  On an Azure cancellation the reason is logged, the error details
plus credential hint are logged when the cancellation was an error with
details, and the `break` aborts the whole per-slide loop, keeping the clips
produced so far; this holds with and without error detail.  But the run does
*not* proceed to final assembly: after `presentation.Close()` the
`args.quitppt` lookup of line 154 raises `AttributeError`, so the
concatenation step is never reached. -/
theorem C2_cancellation_fail_fast :
    Event.print (.synthCanceled .error) ∈ (runMain cfgA wCancelDetail).events ∧
    Event.print (.synthErrorDetails "Bad key") ∈ (runMain cfgA wCancelDetail).events ∧
    Event.print (.processing 3) ∉ (runMain cfgA wCancelDetail).events ∧
    (runMain cfgA wCancelDetail).videos = [videoFilePath cfgA wCancelDetail 1] ∧
    (runMain cfgA wCancelDetail).events.all (fun e => !isFinalAssembly e) = true ∧
    (runMain cfgA wCancelDetail).exit = RunExit.pyError .attributeError ∧
    Event.print (.synthCanceled .cancelledByUser) ∈ (runMain cfgA wCancelPlain).events ∧
    (runMain cfgA wCancelPlain).events.all (fun e => !isErrorDetailsLog e) = true ∧
    Event.print (.processing 3) ∉ (runMain cfgA wCancelPlain).events ∧
    (runMain cfgA wCancelPlain).videos = [videoFilePath cfgA wCancelPlain 1] ∧
    (runMain cfgA wCancelPlain).events.all (fun e => !isFinalAssembly e) = true ∧
    (runMain cfgA wCancelPlain).exit = RunExit.pyError .attributeError := by
  decide

/-! ## C6: the total-character counter -/

/-- The clip-composition steps do not touch the character counter. -/
theorem clipSteps_chars (cfg : Config) (w : World) (n : Int) (st : RunState) :
    (clipSteps cfg w n st).chars = st.chars := rfl

/-- Logging a cancellation does not touch the character counter. -/
theorem cancelLog_chars (st : RunState) (r : CancelReason) (d : String) :
    (cancelLog st r d).chars = st.chars := by
  unfold cancelLog
  split <;> rfl

/-- What the loop adds to `total_chars`: the post-substitution text lengths
of the counted slides, whatever the starting state. -/
theorem runLoop_chars (cfg : Config) (w : World) (pm : List (String × String)) :
    ∀ (l : List Int) (st : RunState),
      ((runLoop cfg w pm l st).1).chars =
        st.chars +
          ((countedSlides cfg w l).map (fun n => (slideFinalText pm w n).length)).sum := by
  intro l
  induction l with
  | nil => intro st; simp [runLoop, countedSlides]
  | cons n rest ih =>
    intro st
    simp only [runLoop]
    by_cases hv : 1 ≤ n ∧ n ≤ (w.slideCount : Int)
    · rw [if_pos hv]
      cases hskip : pySkipText (w.notes n) with
      | true =>
        simp only [if_true]
        rw [ih]
        simp [countedSlides, hv, hskip, pushEvent]
      | false =>
        simp only [Bool.false_eq_true, if_false]
        cases hapi : cfg.api with
        | azure =>
          cases hsy : w.synth n with
          | completed =>
            rw [ih]
            simp [countedSlides, hv, hskip, slideAborts, hapi, hsy, clipSteps_chars,
              pushEvent, slideFinalText, Nat.add_assoc]
          | otherReason =>
            rw [ih]
            simp [countedSlides, hv, hskip, slideAborts, hapi, hsy, clipSteps_chars,
              pushEvent, slideFinalText, Nat.add_assoc]
          | canceled reason details =>
            simp [countedSlides, hv, hskip, slideAborts, hapi, hsy,
              cancelLog_chars, pushEvent, slideFinalText]
        | sapi =>
          cases hvoice : pyInt cfg.voice with
          | none =>
            simp [countedSlides, hv, hskip, slideAborts, hapi, hvoice,
              pushEvent, slideFinalText]
          | some v =>
            rw [ih]
            simp [countedSlides, hv, hskip, slideAborts, hapi, hvoice, clipSteps_chars,
              pushEvent, slideFinalText, Nat.add_assoc]
    · rw [if_neg hv]
      simp [countedSlides, hv, pushEvent]

/-- C6 counterexample.  The claim says the final counter equals the sum of
post-substitution text lengths over *all* selected slides that were not
skipped for empty notes.  In a run whose first slide's synthesis is canceled,
the loop breaks: slide 1 is counted (the counter is incremented before
synthesis) but slide 2 — selected, non-empty — never is: the counter ends at
2 while the claimed sum is 4. -/
theorem C6_counterexample :
    (runMain cfgA wCountBreak).chars = 2 ∧
    claimC6Sum cfgA wCountBreak = 4 ∧
    (runMain cfgA wCountBreak).chars ≠ claimC6Sum cfgA wCountBreak := by
  decide

/-- C6, amended.  The counter accumulates the post-substitution text length
of exactly the counted slides: the selected slides processed before the loop
ends, skipping empty/whitespace-notes slides, stopping after (and including)
a slide whose synthesis aborts the loop, and stopping before an invalid
index.  Concretely, a full run over `"ab"`, whitespace-only, `"cde"` ends
with counter 5. -/
theorem C6_total_chars_amended :
    (∀ (cfg : Config) (w : World) (pm : List (String × String))
        (l : List Int) (st : RunState),
      ((runLoop cfg w pm l st).1).chars =
        st.chars +
          ((countedSlides cfg w l).map (fun n => (slideFinalText pm w n).length)).sum) ∧
    (runMain cfgA wCountMix).chars = 5 := by
  exact ⟨fun cfg w pm l st => runLoop_chars cfg w pm l st, by decide⟩

/-! ## C7: update-mode frame property -/

theorem updOk_print (sel : List Int) (m : LogMsg) : updOkEvent sel (.print m) :=
  ⟨rfl, rfl, fun i hi => by simp [eventIndex] at hi⟩

theorem updOk_open (sel : List Int) (p : String) :
    updOkEvent sel (.openPresentation p) :=
  ⟨rfl, rfl, fun i hi => by simp [eventIndex] at hi⟩

theorem updOk_silence (sel : List Int) (p : String) :
    updOkEvent sel (.ffmpegSilence p) :=
  ⟨rfl, rfl, fun i hi => by simp [eventIndex] at hi⟩

theorem updOk_close (sel : List Int) : updOkEvent sel .closePresentation :=
  ⟨rfl, rfl, fun i hi => by simp [eventIndex] at hi⟩

theorem updOk_remove (sel : List Int) (n : Int) (p : String) (hn : n ∈ sel) :
    updOkEvent sel (.removeIfExists n p) :=
  ⟨rfl, rfl, fun i hi => by simp [eventIndex] at hi; exact hi ▸ hn⟩

theorem updOk_export (sel : List Int) (n : Int) (p : String) (a b : Nat)
    (hn : n ∈ sel) : updOkEvent sel (.exportImage n p a b) :=
  ⟨rfl, rfl, fun i hi => by simp [eventIndex] at hi; exact hi ▸ hn⟩

theorem updOk_azure (sel : List Int) (n : Int) (p t : String) (hn : n ∈ sel) :
    updOkEvent sel (.azureSynth n p t) :=
  ⟨rfl, rfl, fun i hi => by simp [eventIndex] at hi; exact hi ▸ hn⟩

theorem updOk_sapi (sel : List Int) (n : Int) (p t : String) (v : Int)
    (hn : n ∈ sel) : updOkEvent sel (.sapiSynth n p t v) :=
  ⟨rfl, rfl, fun i hi => by simp [eventIndex] at hi; exact hi ▸ hn⟩

theorem updOk_pad (sel : List Int) (n : Int) (p : String) (hn : n ∈ sel) :
    updOkEvent sel (.ffmpegPad n p) :=
  ⟨rfl, rfl, fun i hi => by simp [eventIndex] at hi; exact hi ▸ hn⟩

theorem updOk_clip (sel : List Int) (n : Int) (p : String) (hn : n ∈ sel) :
    updOkEvent sel (.ffmpegClip n p) :=
  ⟨rfl, rfl, fun i hi => by simp [eventIndex] at hi; exact hi ▸ hn⟩

/-- Pushing an allowed event preserves an all-allowed trace. -/
theorem frame_push {sel : List Int} {st : RunState}
    (hst : ∀ e ∈ st.events, updOkEvent sel e) {ev : Event}
    (hev : updOkEvent sel ev) :
    ∀ e ∈ (pushEvent st ev).events, updOkEvent sel e := by
  intro e he
  have he2 : e ∈ st.events ∨ e = ev := by simpa [pushEvent] using he
  rcases he2 with h | rfl
  · exact hst e h
  · exact hev

/-- Cancellation logging only adds prints. -/
theorem frame_cancelLog {sel : List Int} {st : RunState}
    (hst : ∀ e ∈ st.events, updOkEvent sel e) (r : CancelReason) (d : String) :
    ∀ e ∈ (cancelLog st r d).events, updOkEvent sel e := by
  by_cases hd : r = CancelReason.error ∧ d ≠ ""
  · rw [show cancelLog st r d =
        pushEvent (pushEvent st (.print (.synthCanceled r)))
          (.print (.synthErrorDetails d)) from by simp [cancelLog, hd]]
    exact frame_push (frame_push hst (updOk_print sel _)) (updOk_print sel _)
  · rw [show cancelLog st r d = pushEvent st (.print (.synthCanceled r)) from by
        simp [cancelLog, hd]]
    exact frame_push hst (updOk_print sel _)

/-- The clip-composition steps only add events keyed by the slide index. -/
theorem frame_clipSteps {sel : List Int} (cfg : Config) (w : World) {n : Int}
    (hn : n ∈ sel) {st : RunState} (hst : ∀ e ∈ st.events, updOkEvent sel e) :
    ∀ e ∈ (clipSteps cfg w n st).events, updOkEvent sel e := by
  unfold clipSteps
  exact frame_push (frame_push (frame_push hst (updOk_pad sel n _ hn))
    (updOk_print sel _)) (updOk_clip sel n _ hn)

/-- The per-slide loop only adds allowed events: no directory creation, no
manifest write, and artifact steps keyed by indices of the list it
processes. -/
theorem runLoop_frame (cfg : Config) (w : World) (pm : List (String × String))
    (sel : List Int) :
    ∀ (l : List Int), (∀ n ∈ l, n ∈ sel) →
    ∀ (st : RunState), (∀ e ∈ st.events, updOkEvent sel e) →
    ∀ e ∈ ((runLoop cfg w pm l st).1).events, updOkEvent sel e := by
  intro l
  induction l with
  | nil =>
    intro _ st hst
    simpa [runLoop] using hst
  | cons n rest ih =>
    intro hsub st hst
    have hn : n ∈ sel := hsub n (List.mem_cons_self n rest)
    have hrest : ∀ m ∈ rest, m ∈ sel := fun m hm => hsub m (List.mem_cons_of_mem n hm)
    have h1 : ∀ e ∈ (pushEvent st (.print (.processing n))).events, updOkEvent sel e :=
      frame_push hst (updOk_print sel _)
    simp only [runLoop]
    by_cases hv : 1 ≤ n ∧ n ≤ (w.slideCount : Int)
    · rw [if_pos hv]
      cases hskip : pySkipText (w.notes n) with
      | true =>
        simp only [if_true]
        exact ih hrest _ (frame_push h1 (updOk_print sel _))
      | false =>
        simp only [Bool.false_eq_true, if_false]
        have h2 : ∀ e ∈ (pushEvent (pushEvent (pushEvent (pushEvent
            ({ pushEvent st (.print (.processing n)) with
                chars := (pushEvent st (.print (.processing n))).chars +
                  (applyPronunciation pm (normalizeNotes (w.notes n))).length })
            (.print (.exporting n)))
            (.removeIfExists n (slideImagePath cfg w n)))
            (.exportImage n (slideImagePath cfg w n) cfg.videoWidth cfg.videoHeight))
            (.print (.synthesizing n))).events, updOkEvent sel e :=
          frame_push (frame_push (frame_push (frame_push h1 (updOk_print sel _))
            (updOk_remove sel n _ hn)) (updOk_export sel n _ _ _ hn))
            (updOk_print sel _)
        cases hapi : cfg.api with
        | azure =>
          cases hsy : w.synth n with
          | completed =>
            exact ih hrest _
              (frame_clipSteps cfg w hn (frame_push h2 (updOk_azure sel n _ _ hn)))
          | otherReason =>
            exact ih hrest _
              (frame_clipSteps cfg w hn (frame_push h2 (updOk_azure sel n _ _ hn)))
          | canceled reason details =>
            exact frame_cancelLog (frame_push h2 (updOk_azure sel n _ _ hn))
              reason details
        | sapi =>
          cases hvoice : pyInt cfg.voice with
          | none => exact h2
          | some v =>
            exact ih hrest _
              (frame_clipSteps cfg w hn (frame_push h2 (updOk_sapi sel n _ _ _ hn)))
    · rw [if_neg hv]
      exact h1

/-- In update mode the setup performs only the presentation open. -/
theorem setupState_update (cfg : Config) (w : World) (d : String)
    (hu : cfg.update = some d) :
    (setupState cfg w).events = [.openPresentation cfg.pptfile] := by
  simp [setupState, hu, pushEvent]

/-- In update mode the pre-loop trace is open, print, silence generation. -/
theorem silenceState_update (cfg : Config) (w : World) (d : String)
    (hu : cfg.update = some d) :
    (silenceState cfg w).events =
      [.openPresentation cfg.pptfile, .print .generatingSilence,
       .ffmpegSilence (silencePath cfg w)] := by
  simp [silenceState, pushEvents, setupState_update cfg w d hu]

/-- Whatever the loop left, the post-loop code as written only adds the
presentation close before raising. -/
theorem afterLoop_events (cfg : Config) (w : World) (st : RunState) :
    (afterLoop cfg w st).events = st.events ++ [.closePresentation] := by
  simp [afterLoop, argsHasAttr_quitppt, pushEvent]

/-- C7.  In update mode the run never creates the working directory or its
three subdirectories, never writes the concatenation manifest, and every
per-slide artifact step (image removal/export, audio synthesis, audio
padding, clip encoding) is keyed by an index of the selected slide list —
artifacts of non-selected slides are untouched. -/
theorem C7_update_mode_frame (cfg : Config) (w : World) (d : String)
    (hu : cfg.update = some d) :
    ∀ e ∈ (runMain cfg w).events, updOkEvent (slideListOf cfg w) e := by
  unfold runMain
  cases hm : loadMappingOf cfg with
  | raised e => intro e' he'; exact absurd he' (List.not_mem_nil e')
  | ok pm =>
    cases hs : computeSlideList cfg.slides w.slideCount with
    | raised e2 =>
      intro e' he'
      have he2 : e' ∈ (setupState cfg w).events := he'
      rw [setupState_update cfg w d hu] at he2
      rw [List.mem_singleton.mp he2]
      exact updOk_open _ _
    | ok sl =>
      have hsel : slideListOf cfg w = sl := by simp [slideListOf, hs]
      rw [hsel]
      have hst0 : ∀ e ∈ (silenceState cfg w).events, updOkEvent sl e := by
        intro e he
        rw [silenceState_update cfg w d hu] at he
        simp only [List.mem_cons, List.not_mem_nil, or_false] at he
        rcases he with he | he | he
        · rw [he]; exact updOk_open _ _
        · rw [he]; exact updOk_print _ _
        · rw [he]; exact updOk_silence _ _
      rcases hl : runLoop cfg w pm sl (silenceState cfg w) with ⟨st, ex⟩
      have hloop : ∀ e ∈ st.events, updOkEvent sl e := by
        have h := runLoop_frame cfg w pm sl sl (fun n hn => hn) (silenceState cfg w) hst0
        rw [hl] at h
        exact h
      cases ex with
      | failed e2 =>
        simp only [hl]
        intro e' he'
        exact hloop e' he'
      | finished =>
        simp only [hl]
        intro e' he'
        rw [afterLoop_events] at he'
        rcases List.mem_append.mp he' with h | h
        · exact hloop e' h
        · rw [List.mem_singleton.mp h]; exact updOk_close _
      | broke =>
        simp only [hl]
        intro e' he'
        rw [afterLoop_events] at he'
        rcases List.mem_append.mp he' with h | h
        · exact hloop e' h
        · rw [List.mem_singleton.mp h]; exact updOk_close _

/-- Witness for C7: in the concrete update run over `cfgUpd`, the working
directory is not recreated. -/
theorem C7_witness : Event.mkdtempE ∉ (runMain cfgUpd wFive).events := by
  intro h
  have := (C7_update_mode_frame cfgUpd wFive "/prev" rfl) Event.mkdtempE h
  simp [updOkEvent, isDirCreation] at this

end Ppt2Video
